import Mathlib

/-!
Shallow embedding of the natural-selection simulator core
(`src/dna_mutation_explorer_game.jsx`).

Numbers are modelled as rationals.  Every call to the ambient random
number source of the original code is replaced by an explicit tape:
a function `Nat → ℚ` whose values are assumed to lie in `[0, 1)`
exactly where the original draws `Math.random()`, plus `Nat → Nat`
tapes for the randomly generated identifiers (whose values the logic
never inspects).
-/

namespace Birds

/-- The fixed trait set `TRAITS = ["Small", "Medium", "Large"]`. -/
def TRAITS : List String := ["Small", "Medium", "Large"]

/-- An organism: `{ id, trait, energy }`.  The identifier is opaque;
the `energy` field is declared by the source but never used. -/
structure Organism where
  id : Nat
  trait : String
  energy : ℚ
deriving DecidableEq

/-- The trait picked by `TRAITS[Math.floor(Math.random() * TRAITS.length)]`
for a draw `d`. -/
def randomTrait (d : ℚ) : String :=
  TRAITS.getD (Int.toNat ⌊d * (TRAITS.length : ℚ)⌋) ""

/-- `randomPopulation(size)`: `size` fresh organisms, each with a random
trait and identifier and `energy = 0`. -/
def randomPopulation (size : Nat) (idT : Nat → Nat) (traitT : Nat → ℚ) :
    List Organism :=
  (List.range size).map (fun k =>
    { id := idT k, trait := randomTrait (traitT k), energy := 0 })

/-- The environment `{ seed, predatorStrength }`; `seed` is one of the
strings `"small"`, `"mixed"`, `"large"` in normal operation. -/
structure Env where
  seed : String
  predatorStrength : ℚ
deriving DecidableEq

/-- `fitnessForTrait(trait, env)` from the source: a seed-size dependent
base value, minus `predatorStrength` times a trait-dependent penalty
factor, floored at `0.1`. -/
def fitnessForTrait (trait : String) (env : Env) : ℚ :=
  let base : ℚ :=
    if env.seed = "small" then
      if trait = "Small" then 12/10 else if trait = "Medium" then 1 else 8/10
    else if env.seed = "mixed" then
      if trait = "Small" then 105/100 else if trait = "Medium" then 11/10 else 1
    else
      if trait = "Small" then 7/10 else if trait = "Medium" then 1 else 125/100
  let predatorPenalty : ℚ :=
    env.predatorStrength *
      (if trait = "Large" then 3/10 else if trait = "Small" then 5/100 else 15/100)
  max (1/10) (base - predatorPenalty)

/-- A scored organism `{ ...org, score }`, transient within one
generation step. -/
structure ScoredOrganism where
  id : Nat
  trait : String
  energy : ℚ
  score : ℚ
deriving DecidableEq

/-- Scoring one organism: `score = fitnessForTrait(trait, env) * noise`
with `noise = 0.7 + Math.random() * 0.6`; `d` is the raw draw. -/
def scoreOrganism (env : Env) (org : Organism) (d : ℚ) : ScoredOrganism :=
  { id := org.id, trait := org.trait, energy := org.energy,
    score := fitnessForTrait org.trait env * (7/10 + d * (6/10)) }

/-- `population.map` of `scoreOrganism`, the index `i` selecting each
organism's noise draw from the tape. -/
def scoredPopulation (env : Env) (noise : Nat → ℚ) :
    Nat → List Organism → List ScoredOrganism
  | _, [] => []
  | i, org :: rest =>
      scoreOrganism env org (noise i) :: scoredPopulation env noise (i + 1) rest

/-- `scored.sort((a, b) => b.score - a.score)`: stable sort by score
descending. -/
def sortScored (l : List ScoredOrganism) : List ScoredOrganism :=
  l.mergeSort (fun a b => decide (b.score ≤ a.score))

/-- The food loop: walk the sorted list, decrementing `foodLeft` and
admitting one organism while food remains. -/
def surviveFood : Nat → List ScoredOrganism → List ScoredOrganism
  | _, [] => []
  | 0, _ :: _ => []
  | f + 1, x :: xs => x :: surviveFood f xs

/-- `survivors.filter(() => Math.random() > env.predatorStrength * 0.5)`;
the index `i` selects each survivor's draw from the tape. -/
def predationCull (pred : ℚ) (draw : Nat → ℚ) :
    Nat → List ScoredOrganism → List ScoredOrganism
  | _, [] => []
  | i, x :: xs =>
      if pred * (5/10) < draw i then x :: predationCull pred draw (i + 1) xs
      else predationCull pred draw (i + 1) xs

/-- `afterPredation.reduce((s, p) => s + p.score, 0)`. -/
def totalScore (l : List ScoredOrganism) : ℚ :=
  l.foldl (fun s p => s + p.score) 0

/-- The roulette walk of the source: accumulate scores and return the
first element whose cumulative sum reaches `pick`, keeping `parent`
(initialised to the pool's first element) when none does. -/
def rouletteWalk (pick : ℚ) (parent : ScoredOrganism) :
    ℚ → List ScoredOrganism → ScoredOrganism
  | _, [] => parent
  | acc, p :: rest =>
      if pick ≤ acc + p.score then p else rouletteWalk pick parent (acc + p.score) rest

/-- The asymmetric mutation walk applied to a parent trait, for a raw
direction draw `d` in `[0, 1)`. -/
def mutateTrait (trait : String) (d : ℚ) : String :=
  if trait = "Small" then (if d < 1/2 then "Small" else "Medium")
  else if trait = "Medium" then
    (["Small", "Medium", "Large"].getD (Int.toNat ⌊d * 3⌋) "")
  else (if d < 1/2 then "Medium" else "Large")

/-- The offspring trait: mutate with probability `0.06` (raw roll
`roll < 0.06`), otherwise inherit the parent trait. -/
def offspringTrait (parentTrait : String) (roll d : ℚ) : String :=
  if roll < 6/100 then mutateTrait parentTrait d else parentTrait

/-- The random tapes of one `simulateGeneration` call, one per call
site of `Math.random()` in the source. -/
structure RandTapes where
  noise : Nat → ℚ
  cull : Nat → ℚ
  pick : Nat → ℚ
  mutRoll : Nat → ℚ
  mutDir : Nat → ℚ
  childId : Nat → Nat
  immTrait : Nat → ℚ
  immId : Nat → Nat

/-- One iteration of the reproduction loop: recompute the pool's total
score, draw a parent by roulette (default: the pool's first element
`p0`), maybe mutate, and build the offspring; `k` is the iteration
index. -/
def offspringChild (pool : List ScoredOrganism) (p0 : ScoredOrganism)
    (r : RandTapes) (k : Nat) : Organism :=
  let pick := r.pick k * totalScore pool
  let parent := rouletteWalk pick p0 0 pool
  { id := r.childId k,
    trait := offspringTrait parent.trait (r.mutRoll k) (r.mutDir k),
    energy := 0 }

/-- The reproduction while-loop.  The pool never changes inside the
loop, so the loop condition `offspring.length < populationSize` is
modelled by the countdown `remaining = populationSize - offspring.length`;
the loop breaks immediately when the pool is empty. -/
def reproduceAux (pool : List ScoredOrganism) (r : RandTapes) :
    Nat → Nat → List Organism
  | 0, _ => []
  | remaining + 1, k =>
      match pool with
      | [] => []
      | p0 :: _ => offspringChild pool p0 r k :: reproduceAux pool r remaining (k + 1)

/-- The full reproduction stage: up to `popSize` offspring from `pool`. -/
def reproduce (pool : List ScoredOrganism) (r : RandTapes) (popSize : Nat) :
    List Organism :=
  reproduceAux pool r popSize 0

/-- Trait counts of a population, the `traitCounts` memo of the source. -/
structure TraitCounts where
  small : Nat
  medium : Nat
  large : Nat
deriving DecidableEq

/-- Count the organisms carrying each of the three trait values. -/
def traitCounts (pop : List Organism) : TraitCounts :=
  { small := pop.countP (fun o => decide (o.trait = "Small")),
    medium := pop.countP (fun o => decide (o.trait = "Medium")),
    large := pop.countP (fun o => decide (o.trait = "Large")) }

/-- One history entry: pre-transition generation number, trait counts
and environment snapshot. -/
structure GenerationRecord where
  generation : Nat
  counts : TraitCounts
  env : Env
deriving DecidableEq

/-- The simulation state held by the component. -/
structure SimState where
  generation : Nat
  populationSize : Nat
  population : List Organism
  env : Env
  foodPerGen : Nat
  history : List GenerationRecord
  message : String
deriving DecidableEq

/-- The survivor pool entering reproduction: scoring, descending sort,
food-limited survival, then the predation cull. -/
def generationPool (st : SimState) (r : RandTapes) : List ScoredOrganism :=
  predationCull st.env.predatorStrength r.cull 0
    (surviveFood st.foodPerGen
      (sortScored (scoredPopulation st.env r.noise 0 st.population)))

/-- `simulateGeneration`: one full generation transition (the
synchronous part of the source function; the delayed `setTimeout`
message rewrite is presentation). -/
def simulateGeneration (st : SimState) (r : RandTapes) : SimState :=
  let msg0 := "Simulating generation..."
  let pool := generationPool st r
  let offspring := reproduce pool r st.populationSize
  let newPop :=
    if offspring.length < st.populationSize then
      offspring ++ randomPopulation (st.populationSize - offspring.length)
        r.immId r.immTrait
    else offspring
  let msg :=
    if offspring.length < st.populationSize then
      msg0 ++ " Population weakened; random immigrants arrived."
    else msg0
  { st with
    population := newPop,
    generation := st.generation + 1,
    history := st.history ++
      [{ generation := st.generation, counts := traitCounts st.population,
         env := st.env }],
    message := msg }

/-- Iterate `simulateGeneration`, step `n` using tape `tapes n`. -/
def stepN (tapes : Nat → RandTapes) : Nat → SimState → SimState
  | 0, st => st
  | n + 1, st => stepN tapes n (simulateGeneration st (tapes n))

/-- `quickScenario(name)`: four preset checks in sequence (the source
uses four independent `if`s), then the status message; an unrecognized
name leaves the environment untouched. -/
def quickScenario (name : String) (env : Env) : Env × String :=
  let env1 := if name = "Drought (small seeds)" then
    { seed := "small", predatorStrength := 2/10 } else env
  let env2 := if name = "Abundant large seeds" then
    { seed := "large", predatorStrength := 1/10 } else env1
  let env3 := if name = "High predators" then
    { seed := "mixed", predatorStrength := 6/10 } else env2
  let env4 := if name = "Mixed stable" then
    { seed := "mixed", predatorStrength := 15/100 } else env3
  (env4, "Scenario set: " ++ name)

/-- The documented base-fitness policy table, written from the spec's
table (section 4.2) for comparison with `fitnessForTrait`. -/
def specBaseTable (trait seed : String) : ℚ :=
  match seed, trait with
  | "small", "Small" => 12/10
  | "small", "Medium" => 1
  | "small", "Large" => 8/10
  | "mixed", "Small" => 105/100
  | "mixed", "Medium" => 11/10
  | "mixed", "Large" => 1
  | "large", "Small" => 7/10
  | "large", "Medium" => 1
  | "large", "Large" => 125/100
  | _, _ => 0

/-- The documented predation penalty factor (Large 0.3, Medium 0.15,
Small 0.05), written from the spec for comparison. -/
def specPenaltyFactor (trait : String) : ℚ :=
  match trait with
  | "Large" => 3/10
  | "Medium" => 15/100
  | "Small" => 5/100
  | _ => 0

lemma mem_TRAITS_iff {t : String} :
    t ∈ TRAITS ↔ t = "Small" ∨ t = "Medium" ∨ t = "Large" := by
  simp [TRAITS]

lemma mem_seeds_iff {s : String} :
    s ∈ ["small", "mixed", "large"] ↔ s = "small" ∨ s = "mixed" ∨ s = "large" := by
  simp

/-- On the nine documented (trait, seed) pairs with predator strength in
`[0, 1]`, the `0.1` floor never binds and the fitness is the linear
table value. -/
lemma fitness_linear (trait seed : String) (ht : trait ∈ TRAITS)
    (hs : seed ∈ ["small", "mixed", "large"]) (p : ℚ) (hp0 : 0 ≤ p) (hp1 : p ≤ 1) :
    fitnessForTrait trait { seed := seed, predatorStrength := p }
      = specBaseTable trait seed - p * specPenaltyFactor trait := by
  obtain rfl | rfl | rfl := mem_TRAITS_iff.mp ht <;>
    obtain rfl | rfl | rfl := mem_seeds_iff.mp hs <;>
    · simp [fitnessForTrait, specBaseTable, specPenaltyFactor]
      linarith

/-- C2: `fitnessForTrait` is the documented policy-table base value minus
`predatorStrength` times the documented penalty factor, floored at 0.1,
and its output is always at least 0.1.  (It is a pure function of the
trait, the seed size and the predator strength by construction.) -/
theorem c2_fitness_table (trait seed : String) (ht : trait ∈ TRAITS)
    (hs : seed ∈ ["small", "mixed", "large"]) (p : ℚ) :
    fitnessForTrait trait { seed := seed, predatorStrength := p }
      = max (1/10) (specBaseTable trait seed - p * specPenaltyFactor trait) ∧
    1/10 ≤ fitnessForTrait trait { seed := seed, predatorStrength := p } := by
  constructor
  · obtain rfl | rfl | rfl := mem_TRAITS_iff.mp ht <;>
      obtain rfl | rfl | rfl := mem_seeds_iff.mp hs <;>
      simp [fitnessForTrait, specBaseTable, specPenaltyFactor]
  · simp only [fitnessForTrait]
    exact le_max_left _ _

theorem c2_fitness_table_witness :
    fitnessForTrait "Small" { seed := "small", predatorStrength := 1 }
      = max (1/10) (specBaseTable "Small" "small" - 1 * specPenaltyFactor "Small") ∧
    1/10 ≤ fitnessForTrait "Small" { seed := "small", predatorStrength := 1 } :=
  c2_fitness_table "Small" "small" (by decide) (by decide) 1

/-- C9: at zero predator strength small seeds order the fitness
Small > Medium > Large and large seeds order it Large > Medium > Small;
and over any increase of predator strength inside `[0, 1]` the Large
fitness strictly decreases, and decreases by strictly more than the
Small fitness does (penalty 0.3 versus 0.05). -/
theorem c9_fitness_ordering (seed : String) (hs : seed ∈ ["small", "mixed", "large"])
    (p₁ p₂ : ℚ) (hp0 : 0 ≤ p₁) (hlt : p₁ < p₂) (hp1 : p₂ ≤ 1) :
    fitnessForTrait "Medium" { seed := "small", predatorStrength := 0 }
      < fitnessForTrait "Small" { seed := "small", predatorStrength := 0 } ∧
    fitnessForTrait "Large" { seed := "small", predatorStrength := 0 }
      < fitnessForTrait "Medium" { seed := "small", predatorStrength := 0 } ∧
    fitnessForTrait "Medium" { seed := "large", predatorStrength := 0 }
      < fitnessForTrait "Large" { seed := "large", predatorStrength := 0 } ∧
    fitnessForTrait "Small" { seed := "large", predatorStrength := 0 }
      < fitnessForTrait "Medium" { seed := "large", predatorStrength := 0 } ∧
    fitnessForTrait "Large" { seed := seed, predatorStrength := p₂ }
      < fitnessForTrait "Large" { seed := seed, predatorStrength := p₁ } ∧
    fitnessForTrait "Small" { seed := seed, predatorStrength := p₁ }
        - fitnessForTrait "Small" { seed := seed, predatorStrength := p₂ }
      < fitnessForTrait "Large" { seed := seed, predatorStrength := p₁ }
        - fitnessForTrait "Large" { seed := seed, predatorStrength := p₂ } := by
  have hL1 := fitness_linear "Large" seed (by decide) hs p₁ hp0 (by linarith)
  have hL2 := fitness_linear "Large" seed (by decide) hs p₂ (by linarith) hp1
  have hS1 := fitness_linear "Small" seed (by decide) hs p₁ hp0 (by linarith)
  have hS2 := fitness_linear "Small" seed (by decide) hs p₂ (by linarith) hp1
  have h01 : (0:ℚ) ≤ 1 := by norm_num
  have eSS := fitness_linear "Small" "small" (by decide) (by decide) 0 le_rfl h01
  have eMS := fitness_linear "Medium" "small" (by decide) (by decide) 0 le_rfl h01
  have eLS := fitness_linear "Large" "small" (by decide) (by decide) 0 le_rfl h01
  have eSL := fitness_linear "Small" "large" (by decide) (by decide) 0 le_rfl h01
  have eML := fitness_linear "Medium" "large" (by decide) (by decide) 0 le_rfl h01
  have eLL := fitness_linear "Large" "large" (by decide) (by decide) 0 le_rfl h01
  refine ⟨?_, ?_, ?_, ?_, ?_, ?_⟩
  · rw [eMS, eSS]; norm_num [specBaseTable, specPenaltyFactor]
  · rw [eLS, eMS]; norm_num [specBaseTable, specPenaltyFactor]
  · rw [eML, eLL]; norm_num [specBaseTable, specPenaltyFactor]
  · rw [eSL, eML]; norm_num [specBaseTable, specPenaltyFactor]
  · rw [hL1, hL2]
    obtain rfl | rfl | rfl := mem_seeds_iff.mp hs <;>
      · simp only [specBaseTable, specPenaltyFactor]
        linarith
  · rw [hL1, hL2, hS1, hS2]
    obtain rfl | rfl | rfl := mem_seeds_iff.mp hs <;>
      · simp only [specBaseTable, specPenaltyFactor]
        linarith

theorem c9_fitness_ordering_witness :
    fitnessForTrait "Medium" { seed := "small", predatorStrength := 0 }
      < fitnessForTrait "Small" { seed := "small", predatorStrength := 0 } ∧
    fitnessForTrait "Large" { seed := "small", predatorStrength := 0 }
      < fitnessForTrait "Medium" { seed := "small", predatorStrength := 0 } ∧
    fitnessForTrait "Medium" { seed := "large", predatorStrength := 0 }
      < fitnessForTrait "Large" { seed := "large", predatorStrength := 0 } ∧
    fitnessForTrait "Small" { seed := "large", predatorStrength := 0 }
      < fitnessForTrait "Medium" { seed := "large", predatorStrength := 0 } ∧
    fitnessForTrait "Large" { seed := "mixed", predatorStrength := 1 }
      < fitnessForTrait "Large" { seed := "mixed", predatorStrength := 0 } ∧
    fitnessForTrait "Small" { seed := "mixed", predatorStrength := 0 }
        - fitnessForTrait "Small" { seed := "mixed", predatorStrength := 1 }
      < fitnessForTrait "Large" { seed := "mixed", predatorStrength := 0 }
        - fitnessForTrait "Large" { seed := "mixed", predatorStrength := 1 } :=
  c9_fitness_ordering "mixed" (by decide) 0 1 le_rfl (by norm_num) le_rfl

/-- C10: for every trait, every documented seed size and every predator
strength in `[0, 1]` the base value minus the penalty stays at least
0.5, so the 0.1 floor never determines the returned value; the fitness
equals the linear expression exactly and lies in `[0.5, 1.25]`. -/
theorem c10_floor_never_binds (trait seed : String) (ht : trait ∈ TRAITS)
    (hs : seed ∈ ["small", "mixed", "large"]) (p : ℚ) (hp0 : 0 ≤ p) (hp1 : p ≤ 1) :
    1/2 ≤ specBaseTable trait seed - p * specPenaltyFactor trait ∧
    fitnessForTrait trait { seed := seed, predatorStrength := p }
      = specBaseTable trait seed - p * specPenaltyFactor trait ∧
    1/2 ≤ fitnessForTrait trait { seed := seed, predatorStrength := p } ∧
    fitnessForTrait trait { seed := seed, predatorStrength := p } ≤ 5/4 := by
  have h := fitness_linear trait seed ht hs p hp0 hp1
  rw [h]
  refine ⟨?_, rfl, ?_, ?_⟩ <;>
    obtain rfl | rfl | rfl := mem_TRAITS_iff.mp ht <;>
    obtain rfl | rfl | rfl := mem_seeds_iff.mp hs <;>
    · simp [specBaseTable, specPenaltyFactor]
      linarith

theorem c10_floor_never_binds_witness :
    1/2 ≤ specBaseTable "Large" "small" - 1 * specPenaltyFactor "Large" ∧
    fitnessForTrait "Large" { seed := "small", predatorStrength := 1 }
      = specBaseTable "Large" "small" - 1 * specPenaltyFactor "Large" ∧
    1/2 ≤ fitnessForTrait "Large" { seed := "small", predatorStrength := 1 } ∧
    fitnessForTrait "Large" { seed := "small", predatorStrength := 1 } ≤ 5/4 :=
  c10_floor_never_binds "Large" "small" (by decide) (by decide) 1 (by norm_num) le_rfl

/-- On `[0, 1)` direction draws, the Medium mutation walk partitions the
unit interval into equal thirds. -/
lemma mutateTrait_medium_eq (d : ℚ) (h0 : 0 ≤ d) (h1 : d < 1) :
    mutateTrait "Medium" d
      = if d < 1/3 then "Small" else if d < 2/3 then "Medium" else "Large" := by
  have h3 : Int.toNat ⌊d * 3⌋ = if d < 1/3 then 0 else if d < 2/3 then 1 else 2 := by
    split_ifs with hA hB
    · have h : ⌊d * 3⌋ = 0 := by
        rw [Int.floor_eq_zero_iff]
        constructor <;> linarith
      simp [h]
    · have h : ⌊d * 3⌋ = 1 := by
        rw [Int.floor_eq_iff]
        push_cast
        constructor <;> linarith
      simp [h]
    · have h : ⌊d * 3⌋ = 2 := by
        rw [Int.floor_eq_iff]
        push_cast
        constructor <;> linarith
      simp [h]
  have hm : mutateTrait "Medium" d
      = ["Small", "Medium", "Large"].getD (Int.toNat ⌊d * 3⌋) "" := rfl
  rw [hm, h3]
  split_ifs <;> rfl

/-- C5: offspring mutate exactly when the roll is below 0.06 and
otherwise inherit the parent trait; a Small parent never yields a Large
offspring and a Large parent never yields a Small offspring; and the
mutation walk sends a Small parent to Small or Medium on equal halves
of the direction draw, a Medium parent to each of the three traits on
equal thirds, and a Large parent to Medium or Large on equal halves. -/
theorem c5_mutation_walk (roll d : ℚ) :
    (∀ t, 6/100 ≤ roll → offspringTrait t roll d = t) ∧
    (∀ t, roll < 6/100 → offspringTrait t roll d = mutateTrait t d) ∧
    offspringTrait "Small" roll d ≠ "Large" ∧
    offspringTrait "Large" roll d ≠ "Small" ∧
    ((mutateTrait "Small" d = "Small" ↔ d < 1/2) ∧
     (mutateTrait "Small" d = "Medium" ↔ 1/2 ≤ d)) ∧
    (0 ≤ d → d < 1 →
      ((mutateTrait "Medium" d = "Small" ↔ d < 1/3) ∧
       (mutateTrait "Medium" d = "Medium" ↔ 1/3 ≤ d ∧ d < 2/3) ∧
       (mutateTrait "Medium" d = "Large" ↔ 2/3 ≤ d))) ∧
    ((mutateTrait "Large" d = "Medium" ↔ d < 1/2) ∧
     (mutateTrait "Large" d = "Large" ↔ 1/2 ≤ d)) := by
  have hsm : mutateTrait "Small" d = (if d < 1/2 then "Small" else "Medium") := rfl
  have hlg : mutateTrait "Large" d = (if d < 1/2 then "Medium" else "Large") := rfl
  have hos : offspringTrait "Small" roll d
      = (if roll < 6/100 then (if d < 1/2 then "Small" else "Medium") else "Small") := rfl
  have hol : offspringTrait "Large" roll d
      = (if roll < 6/100 then (if d < 1/2 then "Medium" else "Large") else "Large") := rfl
  refine ⟨fun t h => by simp [offspringTrait, not_lt.mpr h],
    fun t h => by simp [offspringTrait, h], ?_, ?_, ?_, ?_, ?_⟩
  · rw [hos]; split_ifs <;> decide
  · rw [hol]; split_ifs <;> decide
  · rw [hsm]
    constructor <;> · split_ifs with h <;> simp [h] <;> linarith
  · intro h0 h1
    rw [mutateTrait_medium_eq d h0 h1]
    refine ⟨?_, ?_, ?_⟩ <;> split_ifs with hA hB <;> simp_all <;> linarith
  · rw [hlg]
    constructor <;> · split_ifs with h <;> simp [h] <;> linarith

theorem c5_mutation_walk_witness :
    offspringTrait "Medium" (7/100) 0 = "Medium" ∧
    offspringTrait "Small" (1/100) (3/4) = mutateTrait "Small" (3/4) ∧
    offspringTrait "Small" (1/100) (3/4) ≠ "Large" ∧
    (mutateTrait "Medium" (1/2) = "Medium" ↔ 1/3 ≤ (1/2 : ℚ) ∧ (1/2 : ℚ) < 2/3) :=
  ⟨(c5_mutation_walk (7/100) 0).1 "Medium" (by norm_num),
   (c5_mutation_walk (1/100) (3/4)).2.1 "Small" (by norm_num),
   (c5_mutation_walk (1/100) (3/4)).2.2.1,
   ((c5_mutation_walk 0 (1/2)).2.2.2.2.2.1 (by norm_num) (by norm_num)).2.1⟩

/-- C8 counterexample: an unrecognized scenario name is a silent no-op.
`quickScenario` leaves the environment unchanged and still sets the
ordinary success message; no error of any kind is signalled. -/
theorem c8_counterexample :
    quickScenario "Storm" { seed := "small", predatorStrength := 2/10 }
      = ({ seed := "small", predatorStrength := 2/10 }, "Scenario set: Storm") ∧
    "Storm" ∉ ["Drought (small seeds)", "Abundant large seeds",
      "High predators", "Mixed stable"] := by
  constructor
  · simp [quickScenario]
  · decide

/-- C8 (amended): `quickScenario "High predators"` sets the environment
exactly to seed `"mixed"` with predator strength 0.6; an unrecognized
name leaves the environment unchanged and sets the ordinary
"Scenario set" message (a silent no-op, with no error signalled). -/
theorem c8_quick_scenario (name : String) (e : Env)
    (h : name ∉ ["Drought (small seeds)", "Abundant large seeds",
      "High predators", "Mixed stable"]) :
    quickScenario "High predators" e
      = ({ seed := "mixed", predatorStrength := 6/10 },
         "Scenario set: High predators") ∧
    quickScenario name e = (e, "Scenario set: " ++ name) := by
  obtain ⟨h1, h2, h3, h4⟩ : name ≠ "Drought (small seeds)" ∧
      name ≠ "Abundant large seeds" ∧ name ≠ "High predators" ∧
      name ≠ "Mixed stable" := by simpa using h
  constructor
  · simp [quickScenario]
  · simp [quickScenario, h1, h2, h3, h4]

theorem c8_quick_scenario_witness :
    quickScenario "High predators" { seed := "large", predatorStrength := 1 }
      = ({ seed := "mixed", predatorStrength := 6/10 },
         "Scenario set: High predators") ∧
    quickScenario "Locust swarm" { seed := "large", predatorStrength := 1 }
      = ({ seed := "large", predatorStrength := 1 }, "Scenario set: Locust swarm") :=
  c8_quick_scenario "Locust swarm" { seed := "large", predatorStrength := 1 } (by decide)

lemma surviveFood_eq_take (f : Nat) (l : List ScoredOrganism) :
    surviveFood f l = l.take f := by
  induction l generalizing f with
  | nil => cases f <;> rfl
  | cons x xs ih =>
    cases f with
    | zero => rfl
    | succ n => simp [surviveFood, ih]

lemma sortScored_sorted (l : List ScoredOrganism) :
    List.Pairwise (fun a b => b.score ≤ a.score) (sortScored l) := by
  have h := @List.sorted_mergeSort ScoredOrganism
    (fun a b => decide (b.score ≤ a.score))
    (fun a b c hab hbc => by
      simp only [decide_eq_true_eq] at *
      exact le_trans hbc hab)
    (fun a b => by
      simp only [Bool.or_eq_true, decide_eq_true_eq]
      exact le_total b.score a.score) l
  exact h.imp (fun hx => by simpa using hx)

/-- C3: the survival stage admits exactly the first
`min foodPerGeneration length` organisms of the score-sorted
population: the survivor list is a `take` of the descending-sorted
scored list (which is a permutation of the scored population), fewer
than `food` survive only when the population is smaller than `food`,
and everyone survives when `food` covers the whole population. -/
theorem c3_survival_top_scorers (food : Nat) (l : List ScoredOrganism) :
    surviveFood food (sortScored l) = (sortScored l).take food ∧
    (sortScored l).Perm l ∧
    List.Pairwise (fun a b => b.score ≤ a.score) (sortScored l) ∧
    (surviveFood food (sortScored l)).length = min food l.length ∧
    (l.length ≤ food → surviveFood food (sortScored l) = sortScored l) := by
  have htake := surviveFood_eq_take food (sortScored l)
  refine ⟨htake, List.mergeSort_perm l _, sortScored_sorted l, ?_, ?_⟩
  · rw [htake, List.length_take, sortScored, List.length_mergeSort]
  · intro h
    rw [htake]
    apply List.take_of_length_le
    rw [sortScored, List.length_mergeSort]
    exact h

theorem c3_survival_top_scorers_witness :
    surviveFood 2 (sortScored [⟨0, "Small", 0, 1⟩]) = (sortScored [⟨0, "Small", 0, 1⟩]).take 2 ∧
    (sortScored [⟨0, "Small", 0, 1⟩]).Perm [⟨0, "Small", 0, 1⟩] ∧
    List.Pairwise (fun a b => b.score ≤ a.score) (sortScored [⟨0, "Small", 0, 1⟩]) ∧
    (surviveFood 2 (sortScored [⟨0, "Small", 0, 1⟩])).length
      = min 2 [(⟨0, "Small", 0, 1⟩ : ScoredOrganism)].length ∧
    ([(⟨0, "Small", 0, 1⟩ : ScoredOrganism)].length ≤ 2 →
      surviveFood 2 (sortScored [⟨0, "Small", 0, 1⟩]) = sortScored [⟨0, "Small", 0, 1⟩]) :=
  c3_survival_top_scorers 2 [⟨0, "Small", 0, 1⟩]

/-- A fixed generation record used by concrete witnesses. -/
def rec0 : GenerationRecord :=
  { generation := 0, counts := { small := 0, medium := 0, large := 0 },
    env := { seed := "mixed", predatorStrength := 0 } }

/-- A fixed random tape used by concrete witnesses: noise draws 0, cull
draws 1/2, pick draws 0, mutation rolls 1 (never mutate), direction
draws 0, identifiers 0, immigrant trait draws 0. -/
def tape0 : RandTapes :=
  { noise := fun _ => 0, cull := fun _ => 1/2, pick := fun _ => 0,
    mutRoll := fun _ => 1, mutDir := fun _ => 0, childId := fun _ => 0,
    immTrait := fun _ => 0, immId := fun _ => 0 }

/-- A fixed one-organism simulation state used by concrete witnesses. -/
def st1 : SimState :=
  { generation := 1, populationSize := 1,
    population := [{ id := 0, trait := "Small", energy := 0 }],
    env := { seed := "mixed", predatorStrength := 0 }, foodPerGen := 1,
    history := [rec0], message := "" }

/-- C6: each `simulateGeneration` call appends exactly one record to the
history — the pre-transition trait counts, the pre-increment generation
number and the current environment — so history grows by exactly one
and every prior entry is unchanged. -/
theorem c6_history_append (st : SimState) (r : RandTapes) :
    (simulateGeneration st r).history
      = st.history ++ [{ generation := st.generation,
                         counts := traitCounts st.population, env := st.env }] ∧
    (simulateGeneration st r).history.length = st.history.length + 1 ∧
    ∀ (d : GenerationRecord) (i : Nat), i < st.history.length →
      (simulateGeneration st r).history.getD i d = st.history.getD i d := by
  have hh : (simulateGeneration st r).history
      = st.history ++ [{ generation := st.generation,
                         counts := traitCounts st.population, env := st.env }] := rfl
  refine ⟨hh, ?_, ?_⟩
  · rw [hh]
    simp
  · intro d i hi
    rw [hh]
    exact List.getD_append _ _ _ _ hi

theorem c6_history_append_witness :
    (simulateGeneration st1 tape0).history
      = st1.history ++ [{ generation := st1.generation,
                          counts := traitCounts st1.population, env := st1.env }] ∧
    (simulateGeneration st1 tape0).history.length = st1.history.length + 1 ∧
    (simulateGeneration st1 tape0).history.getD 0 rec0 = st1.history.getD 0 rec0 :=
  ⟨(c6_history_append st1 tape0).1, (c6_history_append st1 tape0).2.1,
   (c6_history_append st1 tape0).2.2 rec0 0 (by decide)⟩

/-- The parent-selection rule as the spec words it: walk the cumulative
sum of scores and return the first survivor whose cumulative score
meets or exceeds the draw, or nothing when no survivor does. -/
def firstCumulativeAtLeast (pick : ℚ) : ℚ → List ScoredOrganism → Option ScoredOrganism
  | _, [] => none
  | acc, p :: rest =>
      if pick ≤ acc + p.score then some p
      else firstCumulativeAtLeast pick (acc + p.score) rest

lemma mem_surviveFood {x : ScoredOrganism} {f : Nat} {l : List ScoredOrganism}
    (h : x ∈ surviveFood f l) : x ∈ l := by
  rw [surviveFood_eq_take] at h
  exact List.mem_of_mem_take h

lemma mem_predationCull {pred : ℚ} {draw : Nat → ℚ} {x : ScoredOrganism} :
    ∀ {i : Nat} {l : List ScoredOrganism}, x ∈ predationCull pred draw i l → x ∈ l := by
  intro i l
  induction l generalizing i with
  | nil => intro h; simp [predationCull] at h
  | cons y ys ih =>
    intro h
    simp only [predationCull] at h
    split at h
    · rcases List.mem_cons.mp h with rfl | h'
      · exact List.mem_cons_self _ _
      · exact List.mem_cons_of_mem _ (ih h')
    · exact List.mem_cons_of_mem _ (ih h)

lemma scoredPopulation_score_pos {env : Env} {noise : Nat → ℚ}
    (hn : ∀ i, 0 ≤ noise i) :
    ∀ (i : Nat) (pop : List Organism), ∀ s ∈ scoredPopulation env noise i pop,
      0 < s.score := by
  intro i pop
  induction pop generalizing i with
  | nil => intro s hs; simp [scoredPopulation] at hs
  | cons o os ih =>
    intro s hs
    simp only [scoredPopulation, List.mem_cons] at hs
    rcases hs with rfl | hs
    · show 0 < fitnessForTrait o.trait env * (7/10 + noise i * (6/10))
      have h1 : (1:ℚ)/10 ≤ fitnessForTrait o.trait env := by
        simp only [fitnessForTrait]
        exact le_max_left _ _
      have h2 : (0:ℚ) < 7/10 + noise i * (6/10) := by
        have h3 : (0:ℚ) ≤ noise i * (6/10) :=
          mul_nonneg (hn i) (by norm_num)
        linarith
      exact mul_pos (lt_of_lt_of_le (by norm_num) h1) h2
    · exact ih (i + 1) s hs

lemma mem_generationPool {st : SimState} {r : RandTapes} {s : ScoredOrganism}
    (h : s ∈ generationPool st r) :
    s ∈ scoredPopulation st.env r.noise 0 st.population := by
  have h1 := mem_predationCull h
  have h2 := mem_surviveFood h1
  simpa [sortScored] using h2

lemma generationPool_score_pos (st : SimState) (r : RandTapes)
    (hn : ∀ i, 0 ≤ r.noise i) :
    ∀ s ∈ generationPool st r, 0 < s.score :=
  fun s hs => scoredPopulation_score_pos hn 0 st.population s (mem_generationPool hs)

lemma foldl_add_score (l : List ScoredOrganism) :
    ∀ a : ℚ, l.foldl (fun s p => s + p.score) a = a + (l.map ScoredOrganism.score).sum := by
  induction l with
  | nil => intro a; simp
  | cons x xs ih =>
    intro a
    simp only [List.foldl_cons, List.map_cons, List.sum_cons, ih]
    ring

lemma totalScore_eq (l : List ScoredOrganism) :
    totalScore l = (l.map ScoredOrganism.score).sum := by
  simpa [totalScore] using foldl_add_score l 0

lemma totalScore_pos {l : List ScoredOrganism} (h : ∀ s ∈ l, 0 < s.score)
    (hne : l ≠ []) : 0 < totalScore l := by
  rw [totalScore_eq]
  apply List.sum_pos
  · intro x hx
    obtain ⟨s, hs, rfl⟩ := List.mem_map.mp hx
    exact h s hs
  · simpa using hne

lemma rouletteWalk_mem (pick : ℚ) (parent : ScoredOrganism) :
    ∀ (l : List ScoredOrganism) (acc : ℚ),
      rouletteWalk pick parent acc l = parent ∨ rouletteWalk pick parent acc l ∈ l := by
  intro l
  induction l with
  | nil => intro acc; left; rfl
  | cons p rest ih =>
    intro acc
    simp only [rouletteWalk]
    split
    · right
      exact List.mem_cons_self _ _
    · rcases ih (acc + p.score) with h | h
      · left; exact h
      · right; exact List.mem_cons_of_mem _ h

lemma firstCumulativeAtLeast_eq_walk (pick : ℚ) (parent : ScoredOrganism) :
    ∀ (l : List ScoredOrganism) (acc : ℚ), l ≠ [] →
      pick ≤ acc + (l.map ScoredOrganism.score).sum →
      firstCumulativeAtLeast pick acc l = some (rouletteWalk pick parent acc l) := by
  intro l
  induction l with
  | nil => intro acc h _; exact absurd rfl h
  | cons p rest ih =>
    intro acc _ hle
    by_cases hc : pick ≤ acc + p.score
    · simp [firstCumulativeAtLeast, rouletteWalk, hc]
    · cases rest with
      | nil =>
        exfalso
        apply hc
        simpa using hle
      | cons y ys =>
        have h1 : firstCumulativeAtLeast pick acc (p :: y :: ys)
            = firstCumulativeAtLeast pick (acc + p.score) (y :: ys) := by
          simp [firstCumulativeAtLeast, hc]
        have h2 : rouletteWalk pick parent acc (p :: y :: ys)
            = rouletteWalk pick parent (acc + p.score) (y :: ys) := by
          simp [rouletteWalk, hc]
        rw [h1, h2]
        apply ih
        · simp
        · simp only [List.map_cons, List.sum_cons] at hle ⊢
          linarith

/-- C4: every organism in the post-predation survivor pool carries a
strictly positive score (the fitness floor 0.1 times noise at least
0.7), hence the pool's total score is positive whenever the pool is
non-empty; for every draw `q * totalScore` with `q ∈ [0, 1)` the
roulette walk of the source returns exactly the first survivor whose
cumulative score meets or exceeds the draw — a member of the pool,
so a parent with score ≤ 0 is never selected. -/
theorem c4_roulette_selection (st : SimState) (r : RandTapes)
    (hn : ∀ i, 0 ≤ r.noise i) (p0 : ScoredOrganism) (rest : List ScoredOrganism)
    (hpool : generationPool st r = p0 :: rest) (q : ℚ) (hq0 : 0 ≤ q) (hq1 : q < 1) :
    (∀ s ∈ generationPool st r, 0 < s.score) ∧
    0 < totalScore (generationPool st r) ∧
    firstCumulativeAtLeast (q * totalScore (generationPool st r)) 0 (generationPool st r)
      = some (rouletteWalk (q * totalScore (generationPool st r)) p0 0
          (generationPool st r)) ∧
    rouletteWalk (q * totalScore (generationPool st r)) p0 0 (generationPool st r)
      ∈ generationPool st r ∧
    0 < (rouletteWalk (q * totalScore (generationPool st r)) p0 0
          (generationPool st r)).score := by
  have hpos := generationPool_score_pos st r hn
  have hne : generationPool st r ≠ [] := by rw [hpool]; simp
  have htot : 0 < totalScore (generationPool st r) := totalScore_pos hpos hne
  have hpick1 : q * totalScore (generationPool st r)
      ≤ 0 + ((generationPool st r).map ScoredOrganism.score).sum := by
    rw [zero_add, ← totalScore_eq]
    nlinarith
  have hfirst := firstCumulativeAtLeast_eq_walk
    (q * totalScore (generationPool st r)) p0 (generationPool st r) 0 hne hpick1
  have hmem : rouletteWalk (q * totalScore (generationPool st r)) p0 0
      (generationPool st r) ∈ generationPool st r := by
    rcases rouletteWalk_mem (q * totalScore (generationPool st r)) p0
      (generationPool st r) 0 with h | h
    · rw [h, hpool]
      exact List.mem_cons_self _ _
    · exact h
  exact ⟨hpos, htot, hfirst, hmem, hpos _ hmem⟩

theorem c4_roulette_selection_witness :
    (∀ s ∈ generationPool st1 tape0, 0 < s.score) ∧
    0 < totalScore (generationPool st1 tape0) ∧
    firstCumulativeAtLeast ((1/2) * totalScore (generationPool st1 tape0)) 0
        (generationPool st1 tape0)
      = some (rouletteWalk ((1/2) * totalScore (generationPool st1 tape0))
          ⟨0, "Small", 0, 147/200⟩ 0 (generationPool st1 tape0)) ∧
    rouletteWalk ((1/2) * totalScore (generationPool st1 tape0))
        ⟨0, "Small", 0, 147/200⟩ 0 (generationPool st1 tape0)
      ∈ generationPool st1 tape0 ∧
    0 < (rouletteWalk ((1/2) * totalScore (generationPool st1 tape0))
        ⟨0, "Small", 0, 147/200⟩ 0 (generationPool st1 tape0)).score :=
  c4_roulette_selection st1 tape0 (fun _ => le_rfl) ⟨0, "Small", 0, 147/200⟩ []
    (by
      simp [generationPool, scoredPopulation, scoreOrganism, sortScored, surviveFood,
        predationCull, fitnessForTrait, st1, tape0]
      norm_num)
    (1/2) (by norm_num) (by norm_num)

lemma reproduceAux_length (pool : List ScoredOrganism) (r : RandTapes) :
    ∀ (n k : Nat), (reproduceAux pool r n k).length = if pool = [] then 0 else n := by
  intro n
  induction n with
  | zero => intro k; simp [reproduceAux]
  | succ m ih =>
    intro k
    cases pool with
    | nil => simp [reproduceAux]
    | cons p0 tl => simp [reproduceAux, ih]

lemma reproduce_length_le (pool : List ScoredOrganism) (r : RandTapes) (ps : Nat) :
    (reproduce pool r ps).length ≤ ps := by
  rw [reproduce, reproduceAux_length]
  split <;> omega

lemma randomTrait_mem {d : ℚ} (h0 : 0 ≤ d) (h1 : d < 1) : randomTrait d ∈ TRAITS := by
  have h3 : ((TRAITS.length : Nat) : ℚ) = 3 := by norm_num [TRAITS]
  have hfl0 : 0 ≤ ⌊d * ((TRAITS.length : Nat) : ℚ)⌋ := by
    rw [h3]
    exact Int.floor_nonneg.mpr (by linarith)
  have hfl3 : ⌊d * ((TRAITS.length : Nat) : ℚ)⌋ < 3 := by
    rw [h3]
    apply Int.floor_lt.mpr
    push_cast
    linarith
  have hcase : Int.toNat ⌊d * ((TRAITS.length : Nat) : ℚ)⌋ = 0 ∨
      Int.toNat ⌊d * ((TRAITS.length : Nat) : ℚ)⌋ = 1 ∨
      Int.toNat ⌊d * ((TRAITS.length : Nat) : ℚ)⌋ = 2 := by omega
  rcases hcase with h | h | h <;>
    · simp only [randomTrait]
      rw [h]
      decide

lemma randomPopulation_traits {size : Nat} {idT : Nat → Nat} {tT : Nat → ℚ}
    (h : ∀ k, 0 ≤ tT k ∧ tT k < 1) :
    ∀ o ∈ randomPopulation size idT tT, o.trait ∈ TRAITS := by
  intro o ho
  simp only [randomPopulation, List.mem_map] at ho
  obtain ⟨k, _, rfl⟩ := ho
  exact randomTrait_mem (h k).1 (h k).2

lemma mutateTrait_mem (t : String) {d : ℚ} (h0 : 0 ≤ d) (h1 : d < 1) :
    mutateTrait t d ∈ TRAITS := by
  by_cases hS : t = "Small"
  · simp only [mutateTrait, hS]
    norm_num
    split_ifs <;> decide
  · by_cases hM : t = "Medium"
    · subst hM
      rw [mutateTrait_medium_eq d h0 h1]
      split_ifs <;> decide
    · simp only [mutateTrait, hS, hM]
      norm_num
      split_ifs <;> decide

lemma offspringTrait_mem {t : String} (ht : t ∈ TRAITS) {roll d : ℚ}
    (h0 : 0 ≤ d) (h1 : d < 1) : offspringTrait t roll d ∈ TRAITS := by
  simp only [offspringTrait]
  split_ifs
  · exact mutateTrait_mem t h0 h1
  · exact ht

lemma reproduceAux_traits (pool : List ScoredOrganism) (r : RandTapes)
    (hpool : ∀ s ∈ pool, s.trait ∈ TRAITS)
    (hdir : ∀ i, 0 ≤ r.mutDir i ∧ r.mutDir i < 1) :
    ∀ (n k : Nat), ∀ o ∈ reproduceAux pool r n k, o.trait ∈ TRAITS := by
  intro n
  induction n with
  | zero => intro k o ho; simp [reproduceAux] at ho
  | succ m ih =>
    intro k o ho
    cases pool with
    | nil => simp [reproduceAux] at ho
    | cons p0 tl =>
      simp only [reproduceAux, List.mem_cons] at ho
      rcases ho with rfl | ho'
      · show (offspringChild (p0 :: tl) p0 r k).trait ∈ TRAITS
        simp only [offspringChild]
        refine offspringTrait_mem ?_ (hdir k).1 (hdir k).2
        rcases rouletteWalk_mem (r.pick k * totalScore (p0 :: tl)) p0 (p0 :: tl) 0
          with h | h
        · rw [h]
          exact hpool p0 (List.mem_cons_self _ _)
        · exact hpool _ h
      · exact ih (k + 1) o ho'

lemma scoredPopulation_traits {env : Env} {noise : Nat → ℚ} :
    ∀ (i : Nat) (pop : List Organism), (∀ o ∈ pop, o.trait ∈ TRAITS) →
      ∀ s ∈ scoredPopulation env noise i pop, s.trait ∈ TRAITS := by
  intro i pop
  induction pop generalizing i with
  | nil => intro _ s hs; simp [scoredPopulation] at hs
  | cons o os ih =>
    intro hp s hs
    simp only [scoredPopulation, List.mem_cons] at hs
    rcases hs with rfl | hs
    · exact hp o (List.mem_cons_self _ _)
    · exact ih (i + 1) (fun u hu => hp u (List.mem_cons_of_mem _ hu)) s hs

lemma generationPool_traits (st : SimState) (r : RandTapes)
    (htr : ∀ o ∈ st.population, o.trait ∈ TRAITS) :
    ∀ s ∈ generationPool st r, s.trait ∈ TRAITS :=
  fun s hs => scoredPopulation_traits 0 st.population htr s (mem_generationPool hs)

lemma simulateGeneration_population (st : SimState) (r : RandTapes) :
    (simulateGeneration st r).population
      = (if (reproduce (generationPool st r) r st.populationSize).length
            < st.populationSize then
           reproduce (generationPool st r) r st.populationSize
             ++ randomPopulation
                 (st.populationSize
                   - (reproduce (generationPool st r) r st.populationSize).length)
                 r.immId r.immTrait
         else reproduce (generationPool st r) r st.populationSize) := rfl

lemma simulateGeneration_length (st : SimState) (r : RandTapes) :
    (simulateGeneration st r).population.length = st.populationSize := by
  rw [simulateGeneration_population]
  have hle := reproduce_length_le (generationPool st r) r st.populationSize
  split_ifs with h
  · simp only [List.length_append, randomPopulation, List.length_map,
      List.length_range]
    omega
  · omega

lemma simulateGeneration_traits (st : SimState) (r : RandTapes)
    (hdir : ∀ i, 0 ≤ r.mutDir i ∧ r.mutDir i < 1)
    (himm : ∀ i, 0 ≤ r.immTrait i ∧ r.immTrait i < 1)
    (htr : ∀ o ∈ st.population, o.trait ∈ TRAITS) :
    ∀ o ∈ (simulateGeneration st r).population, o.trait ∈ TRAITS := by
  intro o ho
  rw [simulateGeneration_population] at ho
  have hpool := generationPool_traits st r htr
  split_ifs at ho with h
  · rcases List.mem_append.mp ho with h1 | h2
    · exact reproduceAux_traits _ r hpool hdir _ _ o h1
    · exact randomPopulation_traits himm o h2
  · exact reproduceAux_traits _ r hpool hdir _ _ o ho

/-- C1: starting from a state whose population length equals the
configured population size and whose traits are all valid, any number
of `simulateGeneration` steps (with in-range direction and immigrant
draws) yields a state whose population length still equals that same
configured population size and all of whose organisms carry one of the
three valid traits. -/
theorem c1_population_invariant (tapes : Nat → RandTapes)
    (hT : ∀ n, (∀ i, 0 ≤ (tapes n).mutDir i ∧ (tapes n).mutDir i < 1) ∧
               (∀ i, 0 ≤ (tapes n).immTrait i ∧ (tapes n).immTrait i < 1))
    (st : SimState) (hlen : st.population.length = st.populationSize)
    (htr : ∀ o ∈ st.population, o.trait ∈ TRAITS) (n : Nat) :
    (stepN tapes n st).populationSize = st.populationSize ∧
    (stepN tapes n st).population.length = st.populationSize ∧
    ∀ o ∈ (stepN tapes n st).population, o.trait ∈ TRAITS := by
  induction n generalizing st with
  | zero => exact ⟨rfl, hlen, htr⟩
  | succ m ih =>
    have h1 := simulateGeneration_length st (tapes m)
    have h2 := simulateGeneration_traits st (tapes m) (hT m).1 (hT m).2 htr
    exact ih (simulateGeneration st (tapes m)) h1 h2

theorem c1_population_invariant_witness :
    (stepN (fun _ => tape0) 2 st1).populationSize = st1.populationSize ∧
    (stepN (fun _ => tape0) 2 st1).population.length = st1.populationSize ∧
    ∀ o ∈ (stepN (fun _ => tape0) 2 st1).population, o.trait ∈ TRAITS :=
  c1_population_invariant (fun _ => tape0)
    (fun _ => ⟨fun _ => ⟨by norm_num [tape0], by norm_num [tape0]⟩,
               fun _ => ⟨by norm_num [tape0], by norm_num [tape0]⟩⟩)
    st1 rfl (by decide) 2

/-- A fixed empty-population state used by the C7 witness. -/
def st2 : SimState :=
  { generation := 1, populationSize := 1, population := [],
    env := { seed := "mixed", predatorStrength := 0 }, foodPerGen := 1,
    history := [], message := "" }

/-- C7: when reproduction ends with fewer offspring than the target
population size, the returned population is the offspring padded with
freshly created random organisms up to exactly `populationSize`
members, and the state's message is the population-weakened notice;
no error path exists. -/
theorem c7_replenishment (st : SimState) (r : RandTapes)
    (h : (reproduce (generationPool st r) r st.populationSize).length
      < st.populationSize) :
    (simulateGeneration st r).population
      = reproduce (generationPool st r) r st.populationSize
        ++ randomPopulation
            (st.populationSize
              - (reproduce (generationPool st r) r st.populationSize).length)
            r.immId r.immTrait ∧
    (simulateGeneration st r).population.length = st.populationSize ∧
    (simulateGeneration st r).message
      = "Simulating generation... Population weakened; random immigrants arrived." := by
  have hmsg : (simulateGeneration st r).message
      = (if (reproduce (generationPool st r) r st.populationSize).length
            < st.populationSize then
           "Simulating generation..."
             ++ " Population weakened; random immigrants arrived."
         else "Simulating generation...") := rfl
  refine ⟨?_, simulateGeneration_length st r, ?_⟩
  · rw [simulateGeneration_population, if_pos h]
  · rw [hmsg, if_pos h]
    decide

theorem c7_replenishment_witness :
    (simulateGeneration st2 tape0).population
      = reproduce (generationPool st2 tape0) tape0 st2.populationSize
        ++ randomPopulation
            (st2.populationSize
              - (reproduce (generationPool st2 tape0) tape0 st2.populationSize).length)
            tape0.immId tape0.immTrait ∧
    (simulateGeneration st2 tape0).population.length = st2.populationSize ∧
    (simulateGeneration st2 tape0).message
      = "Simulating generation... Population weakened; random immigrants arrived." :=
  c7_replenishment st2 tape0 (by
    have hpool : generationPool st2 tape0 = [] := by
      simp [generationPool, scoredPopulation, sortScored, surviveFood,
        predationCull, st2, tape0]
    rw [hpool]
    decide)

end Birds
